import Mathlib

/-!
Shallow embedding of `gitissuehelper` (src/main.go), a Go CLI that
batch-creates identical GitHub issues across the repositories of an
organization.

The GitHub API is modelled as oracles passed in explicitly:
  * `svc : Nat → Except String (List String × Nat)` models
    `client.Repositories.ListByOrg` — given a page number it returns either
    an error or the page's repository names together with `resp.NextPage`
    (`0` meaning no further page, as in the go-github client).
  * `net : Nat → IssueCall → Except String Unit` models
    `client.Issues.Create` — given the index of the call in the run's
    network-event sequence and the request payload, it returns success or
    an error.  Indexing by position lets the oracle realise every pattern
    of per-repository outcomes.

Side effects on the network are made explicit as a trace `List NetEvent`
threaded through the functions in state-passing style: each API call
appends one event.  The pagination loop of `GetAllRepositories` has no
termination guarantee in Go, so its embedding is fuel-indexed and returns
`none` when the fuel runs out (i.e. the Go program would still be looping).
-/

/-- Model of Go `unicode.IsSpace` restricted to the Latin-1 range, the
characters Go's `strings.TrimSpace` strips there: `'\t'`, `'\n'`, `'\v'`,
`'\f'`, `'\r'`, `' '`, U+0085 and U+00A0.  (Unicode space characters above
Latin-1 are not modelled; no claim involves them.) -/
def isGoSpace (c : Char) : Bool :=
  c = ' ' || c = '\t' || c = '\n' || c = Char.ofNat 11 || c = Char.ofNat 12 ||
    c = '\r' || c = Char.ofNat 0x85 || c = Char.ofNat 0xA0

/-- Model of Go `strings.TrimSpace`: drop leading and trailing whitespace. -/
def trimSpace (s : String) : String :=
  String.mk (((s.data.dropWhile isGoSpace).reverse.dropWhile isGoSpace).reverse)

/-- Model of Go `strings.Split(s, ",")` on the character list: split around
each comma; the empty input yields one empty field. -/
def splitCommaChars : List Char → List (List Char)
  | [] => [[]]
  | c :: rest =>
    match splitCommaChars rest with
    | [] => [[]]
    | cur :: parts =>
      if c = ',' then [] :: cur :: parts else (c :: cur) :: parts

/-- Model of Go `strings.Split(s, ",")`. -/
def splitComma (s : String) : List String :=
  (splitCommaChars s.data).map String.mk

/-- `strings.Split(s, ",")` followed by the in-place `strings.TrimSpace`
loop, as `runCreate` does for both `--repos` and `--labels`. -/
def parseList (s : String) : List String :=
  (splitComma s).map trimSpace

/-- The `IssueCreator` struct (src/main.go lines 16–23).  The oauth2/HTTP
client built from the token is abstracted to the token itself; `ctx` is
dropped (it only carries cancellation, never used). -/
structure IssueCreator where
  token : String
  org : String
  title : String
  desc : String
  labels : List String
deriving DecidableEq, Repr

/-- `NewIssueCreator` (src/main.go lines 26–46): rejects an empty token,
otherwise packages the configuration. -/
def NewIssueCreator (token org title desc : String) (labels : List String) :
    Except String IssueCreator :=
  if token = "" then
    Except.error "GitHub token is required. Set GITHUB_TOKEN env var or use --token flag"
  else
    Except.ok ⟨token, org, title, desc, labels⟩

/-- The payload of one `client.Issues.Create` call: the two path parameters
(org, repo) and the `github.IssueRequest` fields built in `CreateIssue`. -/
structure IssueCall where
  org : String
  repo : String
  title : String
  body : String
  labels : List String
deriving DecidableEq, Repr

/-- One network interaction of the program: a `ListByOrg` page request or a
`Issues.Create` request. -/
inductive NetEvent where
  | listByOrg (page : Nat)
  | createIssue (call : IssueCall)
deriving DecidableEq, Repr

/-- The `github.IssueRequest` (plus path parameters) that `CreateIssue`
builds for a repository: title, body and labels come unchanged from the
`IssueCreator` fields. -/
def mkCall (ic : IssueCreator) (repo : String) : IssueCall :=
  ⟨ic.org, repo, ic.title, ic.desc, ic.labels⟩

/-- `CreateIssue` (src/main.go lines 75–88): performs exactly one
`Issues.Create` call with the fixed payload, wrapping a failure with the
repository identity.  Returns the result together with the extended
network trace. -/
def CreateIssue (net : Nat → IssueCall → Except String Unit) (ic : IssueCreator)
    (repo : String) (evs : List NetEvent) : Except String Unit × List NetEvent :=
  let call := mkCall ic repo
  let res : Except String Unit :=
    match net evs.length call with
    | Except.error e =>
        Except.error ("failed to create issue in " ++ ic.org ++ "/" ++ repo ++ ": " ++ e)
    | Except.ok _ => Except.ok ()
  (res, evs ++ [NetEvent.createIssue call])

/-- `CreateIssuesInRepositories` (src/main.go lines 91–107): iterate the
repository list in order, one `CreateIssue` per entry, incrementing the
matching counter; errors are counted, never propagated.  `success` and
`failed` are the two counters (0 at the top-level call site). -/
def CreateIssuesInRepositories (net : Nat → IssueCall → Except String Unit)
    (ic : IssueCreator) :
    List String → Nat → Nat → List NetEvent → (Nat × Nat) × List NetEvent
  | [], success, failed, evs => ((success, failed), evs)
  | repo :: rest, success, failed, evs =>
    match CreateIssue net ic repo evs with
    | (Except.error _, evs') =>
        CreateIssuesInRepositories net ic rest success (failed + 1) evs'
    | (Except.ok _, evs') =>
        CreateIssuesInRepositories net ic rest (success + 1) failed evs'

/-- `GetAllRepositories` (src/main.go lines 49–72): request page after page
(`opts.Page` starts at its zero value), append the names of each page in
order, stop when `resp.NextPage == 0`, and abort with a wrapped error as
soon as a page request fails — the accumulated `repos` are discarded.
Fuel-indexed; `none` models the Go loop not having terminated yet. -/
def GetAllRepositories (svc : Nat → Except String (List String × Nat)) :
    Nat → Nat → List String → List NetEvent →
      Option (Except String (List String) × List NetEvent)
  | 0, _, _, _ => none
  | fuel + 1, page, repos, evs =>
    let evs' := evs ++ [NetEvent.listByOrg page]
    match svc page with
    | Except.error e =>
        some (Except.error ("failed to fetch repositories: " ++ e), evs')
    | Except.ok (names, nextPage) =>
      if nextPage = 0 then some (Except.ok (repos ++ names), evs')
      else GetAllRepositories svc fuel nextPage (repos ++ names) evs'

/-- The chain of page responses the service produces starting from `page`:
each element is a visited page number paired with the repository names it
returned.  `some` only when every page along the chain succeeds and the
chain reaches `NextPage == 0` within the fuel. -/
def pageChain (svc : Nat → Except String (List String × Nat)) :
    Nat → Nat → Option (List (Nat × List String))
  | 0, _ => none
  | fuel + 1, page =>
    match svc page with
    | Except.error _ => none
    | Except.ok (names, nextPage) =>
      if nextPage = 0 then some [(page, names)]
      else
        match pageChain svc fuel nextPage with
        | none => none
        | some rest => some ((page, names) :: rest)

/-- The configuration `runCreate` reads from viper (flags/environment). -/
structure AppConfig where
  org : String
  title : String
  description : String
  repos : String
  labels : String
  token : String
deriving DecidableEq, Repr

/-- Credential resolution (src/main.go lines 136–139): the `--token` flag
value if non-empty, otherwise `os.Getenv("GITHUB_TOKEN")` (empty when the
variable is unset). -/
def resolveToken (flagToken envToken : String) : String :=
  if flagToken = "" then envToken else flagToken

/-- Repository resolution (src/main.go lines 157–172): an explicit
`--repos` value is split on commas and trimmed; otherwise the whole
organization is enumerated via `GetAllRepositories`. -/
def resolveRepos (cfg : AppConfig) (fuel : Nat)
    (svc : Nat → Except String (List String × Nat)) :
    Option (Except String (List String) × List NetEvent) :=
  if cfg.repos ≠ "" then some (Except.ok (parseList cfg.repos), [])
  else GetAllRepositories svc fuel 0 [] []

/-- `runCreate` (src/main.go lines 122–194): validate required fields,
resolve the credential, build the `IssueCreator`, resolve the repository
list, reject an empty list, then run the batch.  The result is the pair
(success, failed) on a completed batch or the error `runCreate` returns,
together with the network-event trace; `none` models a non-terminating
pagination loop. -/
def runCreate (cfg : AppConfig) (envToken : String) (fuel : Nat)
    (svc : Nat → Except String (List String × Nat))
    (net : Nat → IssueCall → Except String Unit) :
    Option (Except String (Nat × Nat) × List NetEvent) :=
  if cfg.org = "" ∨ cfg.title = "" ∨ cfg.description = "" then
    some (Except.error "missing required arguments: --org, --title, and --description are required", [])
  else
    let token := resolveToken cfg.token envToken
    let labelList := if cfg.labels = "" then [] else parseList cfg.labels
    match NewIssueCreator token cfg.org cfg.title cfg.description labelList with
    | Except.error e => some (Except.error ("failed to initialize: " ++ e), [])
    | Except.ok creator =>
      match resolveRepos cfg fuel svc with
      | none => none
      | some (Except.error e, evs) =>
          some (Except.error ("failed to fetch repositories: " ++ e), evs)
      | some (Except.ok repoList, evs) =>
        if repoList = [] then some (Except.error "no repositories found", evs)
        else
          let res := CreateIssuesInRepositories net creator repoList 0 0 evs
          some (Except.ok res.1, res.2)

/-- Process exit status: `runCreate` calls `os.Exit(1)` when `failed > 0`
(line 190) and otherwise returns `nil`; a returned error reaches
`log.Fatalf` in `main` (lines 221–225), which exits with status 1. -/
def processExit (r : Except String (Nat × Nat)) : Nat :=
  match r with
  | Except.error _ => 1
  | Except.ok (_, failed) => if failed > 0 then 1 else 0

/-- The repositories that `Issues.Create` calls were made for, in trace
order. -/
def submitRepos : List NetEvent → List String
  | [] => []
  | NetEvent.createIssue c :: rest => c.repo :: submitRepos rest
  | NetEvent.listByOrg _ :: rest => submitRepos rest

/-! ### Concrete oracles and configurations used to instantiate theorems -/

/-- A listing service with two pages (page 0 then page 2) and an error on
any other page. -/
def svcPages : Nat → Except String (List String × Nat) := fun page =>
  if page = 0 then Except.ok (["r1", "r2"], 2)
  else if page = 2 then Except.ok (["r3"], 0)
  else Except.error "rate limited"

/-- A listing service for an organization with zero repositories. -/
def svcEmptyOrg : Nat → Except String (List String × Nat) := fun _ =>
  Except.ok ([], 0)

/-- An issue-creation endpoint on which every submission succeeds. -/
def netOk : Nat → IssueCall → Except String Unit := fun _ _ => Except.ok ()

/-- An issue-creation endpoint that fails on the second call of the run. -/
def netFailSecond : Nat → IssueCall → Except String Unit := fun idx _ =>
  if idx = 1 then Except.error "404 Not Found" else Except.ok ()

/-- Configuration with no token anywhere. -/
def cfgNoToken : AppConfig := ⟨"acme", "T", "D", "", "", ""⟩

/-- Configuration listing the whole organization. -/
def cfgListOrg : AppConfig := ⟨"acme", "T", "D", "", "", "tok"⟩

/-- Configuration with an explicit two-repository list. -/
def cfgTwoRepos : AppConfig := ⟨"acme", "T", "D", "r1,r2", "", "tok"⟩

/-- Configuration with the irregularly spaced explicit list of the spec. -/
def cfgSpaced : AppConfig := ⟨"acme", "T", "D", "a, b ,c", "", "tok"⟩

/-- Configuration whose explicit repository list is just a comma. -/
def cfgComma : AppConfig := ⟨"acme", "T", "D", ",", "", "tok"⟩

/-! ### Helper lemmas -/

theorem splitCommaChars_ne_nil (l : List Char) : splitCommaChars l ≠ [] := by
  cases l with
  | nil => simp [splitCommaChars]
  | cons c rest =>
    cases h : splitCommaChars rest with
    | nil => simp [splitCommaChars, h]
    | cons cur parts =>
      by_cases hc : c = ',' <;> simp [splitCommaChars, h, hc]

theorem parseList_ne_nil (s : String) : parseList s ≠ [] := by
  intro h
  have := splitCommaChars_ne_nil s.data
  simp only [parseList, splitComma, List.map_eq_nil_iff] at h
  exact this h

theorem createIssues_counts (net : Nat → IssueCall → Except String Unit)
    (ic : IssueCreator) :
    ∀ (repos : List String) (success failed : Nat) (evs : List NetEvent),
      ((CreateIssuesInRepositories net ic repos success failed evs).1).1 +
        ((CreateIssuesInRepositories net ic repos success failed evs).1).2 =
        success + failed + repos.length := by
  intro repos
  induction repos with
  | nil => intro success failed evs; simp [CreateIssuesInRepositories]
  | cons repo rest ih =>
    intro success failed evs
    cases h : net evs.length (mkCall ic repo) with
    | error e =>
      simp only [CreateIssuesInRepositories, CreateIssue, h]
      rw [ih]
      simp [Nat.add_assoc, Nat.add_comm, Nat.add_left_comm]
    | ok u =>
      simp only [CreateIssuesInRepositories, CreateIssue, h]
      rw [ih]
      simp [Nat.add_assoc, Nat.add_comm, Nat.add_left_comm]

theorem createIssues_trace (net : Nat → IssueCall → Except String Unit)
    (ic : IssueCreator) :
    ∀ (repos : List String) (success failed : Nat) (evs : List NetEvent),
      (CreateIssuesInRepositories net ic repos success failed evs).2 =
        evs ++ repos.map (fun r => NetEvent.createIssue (mkCall ic r)) := by
  intro repos
  induction repos with
  | nil => intro success failed evs; simp [CreateIssuesInRepositories]
  | cons repo rest ih =>
    intro success failed evs
    cases h : net evs.length (mkCall ic repo) with
    | error e =>
      simp only [CreateIssuesInRepositories, CreateIssue, h]
      rw [ih]
      simp
    | ok u =>
      simp only [CreateIssuesInRepositories, CreateIssue, h]
      rw [ih]
      simp

theorem submitRepos_append (l1 l2 : List NetEvent) :
    submitRepos (l1 ++ l2) = submitRepos l1 ++ submitRepos l2 := by
  induction l1 with
  | nil => simp [submitRepos]
  | cons e rest ih =>
    cases e with
    | listByOrg p => simp [submitRepos, ih]
    | createIssue c => simp [submitRepos, ih]

theorem submitRepos_map_create (ic : IssueCreator) (repos : List String) :
    submitRepos (repos.map (fun r => NetEvent.createIssue (mkCall ic r))) = repos := by
  induction repos with
  | nil => simp [submitRepos]
  | cons repo rest ih =>
    simp only [List.map_cons, submitRepos]
    rw [ih]
    simp [mkCall]

theorem getAll_submitRepos (svc : Nat → Except String (List String × Nat)) :
    ∀ (fuel page : Nat) (repos : List String) (evs : List NetEvent) r,
      GetAllRepositories svc fuel page repos evs = some r →
      submitRepos r.2 = submitRepos evs := by
  intro fuel
  induction fuel with
  | zero => intro page repos evs r h; simp [GetAllRepositories] at h
  | succ n ih =>
    intro page repos evs r h
    cases hs : svc page with
    | error e =>
      simp only [GetAllRepositories, hs] at h
      cases h
      simp [submitRepos_append, submitRepos]
    | ok pr =>
      obtain ⟨names, nextPage⟩ := pr
      by_cases h0 : nextPage = 0
      · simp only [GetAllRepositories, hs, h0, if_pos] at h
        cases h
        simp [submitRepos_append, submitRepos]
      · simp only [GetAllRepositories, hs, if_neg h0] at h
        have := ih nextPage (repos ++ names) (evs ++ [NetEvent.listByOrg page]) r h
        rw [this]
        simp [submitRepos_append, submitRepos]

theorem getAll_pageChain (svc : Nat → Except String (List String × Nat)) :
    ∀ (fuel page : Nat) (repos : List String) (evs : List NetEvent) ch,
      pageChain svc fuel page = some ch →
      GetAllRepositories svc fuel page repos evs =
        some (Except.ok (repos ++ (ch.map Prod.snd).flatten),
          evs ++ ch.map (fun pc => NetEvent.listByOrg pc.1)) := by
  intro fuel
  induction fuel with
  | zero => intro page repos evs ch h; simp [pageChain] at h
  | succ n ih =>
    intro page repos evs ch h
    cases hs : svc page with
    | error e => simp [pageChain, hs] at h
    | ok pr =>
      obtain ⟨names, nextPage⟩ := pr
      by_cases h0 : nextPage = 0
      · simp only [pageChain, hs, h0, if_pos] at h
        cases h
        simp [GetAllRepositories, hs, h0]
      · simp only [pageChain, hs, if_neg h0] at h
        cases hrest : pageChain svc n nextPage with
        | none => simp [hrest] at h
        | some rest =>
          rw [hrest] at h
          cases h
          have := ih nextPage (repos ++ names) (evs ++ [NetEvent.listByOrg page]) rest hrest
          simp only [GetAllRepositories, hs, if_neg h0]
          rw [this]
          simp

theorem resolveRepos_submitRepos (cfg : AppConfig) (fuel : Nat)
    (svc : Nat → Except String (List String × Nat)) (r) :
    resolveRepos cfg fuel svc = some r → submitRepos r.2 = [] := by
  intro h
  unfold resolveRepos at h
  by_cases h5 : cfg.repos ≠ ""
  · rw [if_pos h5] at h
    cases h
    simp [submitRepos]
  · rw [if_neg h5] at h
    have := getAll_submitRepos svc fuel 0 [] [] r h
    simpa [submitRepos] using this

theorem runCreate_explicit (cfg : AppConfig) (envToken : String) (fuel : Nat)
    (svc : Nat → Except String (List String × Nat))
    (net : Nat → IssueCall → Except String Unit)
    (h1 : cfg.org ≠ "") (h2 : cfg.title ≠ "") (h3 : cfg.description ≠ "")
    (h4 : resolveToken cfg.token envToken ≠ "") (h5 : cfg.repos ≠ "") :
    runCreate cfg envToken fuel svc net =
      some (Except.ok (CreateIssuesInRepositories net
          ⟨resolveToken cfg.token envToken, cfg.org, cfg.title, cfg.description,
            if cfg.labels = "" then [] else parseList cfg.labels⟩
          (parseList cfg.repos) 0 0 []).1,
        (CreateIssuesInRepositories net
          ⟨resolveToken cfg.token envToken, cfg.org, cfg.title, cfg.description,
            if cfg.labels = "" then [] else parseList cfg.labels⟩
          (parseList cfg.repos) 0 0 []).2) := by
  have hval : ¬(cfg.org = "" ∨ cfg.title = "" ∨ cfg.description = "") := by
    simp [h1, h2, h3]
  simp only [runCreate, if_neg hval, NewIssueCreator, if_neg h4, resolveRepos,
    if_pos h5, if_neg (parseList_ne_nil cfg.repos)]

theorem runCreate_no_token (cfg : AppConfig) (envToken : String) (fuel : Nat)
    (svc : Nat → Except String (List String × Nat))
    (net : Nat → IssueCall → Except String Unit)
    (h1 : cfg.org ≠ "") (h2 : cfg.title ≠ "") (h3 : cfg.description ≠ "")
    (h4 : resolveToken cfg.token envToken = "") :
    runCreate cfg envToken fuel svc net =
      some (Except.error ("failed to initialize: " ++
        "GitHub token is required. Set GITHUB_TOKEN env var or use --token flag"), []) := by
  have hval : ¬(cfg.org = "" ∨ cfg.title = "" ∨ cfg.description = "") := by
    simp [h1, h2, h3]
  simp only [runCreate, if_neg hval, NewIssueCreator, if_pos h4]

theorem runCreate_empty_repos (cfg : AppConfig) (envToken : String) (fuel : Nat)
    (svc : Nat → Except String (List String × Nat))
    (net : Nat → IssueCall → Except String Unit) (evs : List NetEvent)
    (h1 : cfg.org ≠ "") (h2 : cfg.title ≠ "") (h3 : cfg.description ≠ "")
    (h4 : resolveToken cfg.token envToken ≠ "")
    (h5 : resolveRepos cfg fuel svc = some (Except.ok [], evs)) :
    runCreate cfg envToken fuel svc net =
      some (Except.error "no repositories found", evs) := by
  have hval : ¬(cfg.org = "" ∨ cfg.title = "" ∨ cfg.description = "") := by
    simp [h1, h2, h3]
  simp only [runCreate, if_neg hval, NewIssueCreator, if_neg h4, h5]
  simp

/-! ### Claims -/

/-- Claim C1: for every run of the batch orchestrator
`CreateIssuesInRepositories` (started with both counters at 0, as at its
only call site), the returned pair satisfies
`successCount + failureCount = length of the repository list`, whatever the
per-repository outcomes are — each repository contributes exactly one unit
to exactly one counter.  Proved for all lists, so in particular for the
non-empty ones the claim quantifies over. -/
theorem claim_C1_counts_sum (net : Nat → IssueCall → Except String Unit)
    (ic : IssueCreator) (repos : List String) (evs : List NetEvent) :
    ((CreateIssuesInRepositories net ic repos 0 0 evs).1).1 +
      ((CreateIssuesInRepositories net ic repos 0 0 evs).1).2 = repos.length := by
  have h := createIssues_counts net ic repos 0 0 evs
  simpa using h

/-- Claim C2: for every repository list and every pattern of submission
outcomes (the oracle `net` is universally quantified, so it realises every
such pattern), the orchestrator makes exactly one submission call per
repository, in list order — a failure never stops the remaining
repositories.  The orchestrator's return type `(Nat × Nat) × List NetEvent`
carries no error alternative, so no error is ever propagated: failures are
only recorded in the failure counter. -/
theorem claim_C2_no_fail_fast (net : Nat → IssueCall → Except String Unit)
    (ic : IssueCreator) (repos : List String) (evs : List NetEvent) :
    (CreateIssuesInRepositories net ic repos 0 0 evs).2 =
      evs ++ repos.map (fun r => NetEvent.createIssue (mkCall ic r)) :=
  createIssues_trace net ic repos 0 0 evs

/-- Claim C3: the repository lister `GetAllRepositories` follows the
service's page chain until `NextPage = 0` and returns the concatenation of
the pages' names in the order received (first conjunct: one `listByOrg`
request per chain entry, result = flattened page contents, no sorting or
filtering); and as soon as a page request fails it returns the wrapped
fetch error — the accumulator `repos0` of names from earlier pages does not
appear in the error result, so partial results are discarded (second
conjunct, stated for an arbitrary accumulator). -/
theorem claim_C3_lister (svc : Nat → Except String (List String × Nat))
    (fuel page : Nat) (repos0 : List String) (evs : List NetEvent) :
    (∀ ch, pageChain svc fuel page = some ch →
      GetAllRepositories svc fuel page repos0 evs =
        some (Except.ok (repos0 ++ (ch.map Prod.snd).flatten),
          evs ++ ch.map (fun pc => NetEvent.listByOrg pc.1))) ∧
    (∀ e, svc page = Except.error e →
      GetAllRepositories svc (fuel + 1) page repos0 evs =
        some (Except.error ("failed to fetch repositories: " ++ e),
          evs ++ [NetEvent.listByOrg page])) := by
  constructor
  · intro ch h
    exact getAll_pageChain svc fuel page repos0 evs ch h
  · intro e h
    simp [GetAllRepositories, h]

/-- Witness for C3 at a concrete two-page service: the run over pages 0 and
2 returns the concatenation `["r1","r2","r3"]`, and a failing page request
returns the fetch error even though names were already accumulated. -/
theorem claim_C3_lister_witness :
    GetAllRepositories svcPages 3 0 [] [] =
      some (Except.ok ["r1", "r2", "r3"],
        [NetEvent.listByOrg 0, NetEvent.listByOrg 2]) ∧
    GetAllRepositories svcPages 1 5 ["r1", "r2"] [] =
      some (Except.error "failed to fetch repositories: rate limited",
        [NetEvent.listByOrg 5]) := by
  constructor
  · have h := (claim_C3_lister svcPages 3 0 [] []).1
      [(0, ["r1", "r2"]), (2, ["r3"])] rfl
    exact h.trans (by rfl)
  · have h := (claim_C3_lister svcPages 0 5 ["r1", "r2"] []).2 "rate limited" rfl
    exact h.trans (by rfl)

/-- Claim C4: credential resolution uses the non-empty `--token` flag value
first, otherwise the `GITHUB_TOKEN` environment variable; and when neither
yields a non-empty value (and the required fields are present, so execution
reaches the token check), the run fails at `NewIssueCreator` construction
time with the token-required configuration error and an empty network
trace — zero network calls, before any listing or submission. -/
theorem claim_C4_credentials (cfg : AppConfig) (envToken : String) (fuel : Nat)
    (svc : Nat → Except String (List String × Nat))
    (net : Nat → IssueCall → Except String Unit) :
    (cfg.token ≠ "" → resolveToken cfg.token envToken = cfg.token) ∧
    (cfg.token = "" → resolveToken cfg.token envToken = envToken) ∧
    (cfg.org ≠ "" → cfg.title ≠ "" → cfg.description ≠ "" →
      cfg.token = "" → envToken = "" →
      runCreate cfg envToken fuel svc net =
        some (Except.error ("failed to initialize: " ++
          "GitHub token is required. Set GITHUB_TOKEN env var or use --token flag"),
          [])) := by
  refine ⟨?_, ?_, ?_⟩
  · intro h
    simp [resolveToken, h]
  · intro h
    simp [resolveToken, h]
  · intro h1 h2 h3 h4 h5
    apply runCreate_no_token cfg envToken fuel svc net h1 h2 h3
    simp [resolveToken, h4, h5]

/-- Witness for C4: a non-empty flag wins over the environment, and with
both flag and environment empty the concrete run fails with the
configuration error and an empty trace. -/
theorem claim_C4_credentials_witness :
    resolveToken "flagtok" "envtok" = "flagtok" ∧
    runCreate cfgNoToken "" 1 svcPages netOk =
      some (Except.error ("failed to initialize: " ++
        "GitHub token is required. Set GITHUB_TOKEN env var or use --token flag"),
        []) := by
  constructor
  · exact (claim_C4_credentials ⟨"a", "b", "c", "", "", "flagtok"⟩ "envtok" 0
      svcPages netOk).1 (by decide)
  · exact (claim_C4_credentials cfgNoToken "" 1 svcPages netOk).2.2
      (by decide) (by decide) (by decide) rfl rfl

/-- Claim C5: whenever the resolved repository sequence is empty (the
`len(repoList) == 0` check in `runCreate` sits after both resolution
branches, so it covers any way the sequence ends up empty — with this code
that is an organization enumeration returning zero repositories, since an
explicit `--repos` value never resolves to an empty list), the run fails
with the empty-target error and the trace contains zero submissions. -/
theorem claim_C5_empty_target (cfg : AppConfig) (envToken : String) (fuel : Nat)
    (svc : Nat → Except String (List String × Nat))
    (net : Nat → IssueCall → Except String Unit) (evs : List NetEvent)
    (h1 : cfg.org ≠ "") (h2 : cfg.title ≠ "") (h3 : cfg.description ≠ "")
    (h4 : resolveToken cfg.token envToken ≠ "")
    (h5 : resolveRepos cfg fuel svc = some (Except.ok [], evs)) :
    runCreate cfg envToken fuel svc net =
      some (Except.error "no repositories found", evs) ∧
    submitRepos evs = [] := by
  constructor
  · exact runCreate_empty_repos cfg envToken fuel svc net evs h1 h2 h3 h4 h5
  · have h := resolveRepos_submitRepos cfg fuel svc (Except.ok [], evs) h5
    simpa using h

/-- Witness for C5: an organization with zero repositories makes the
concrete run fail with the empty-target error after one listing call and
no submission. -/
theorem claim_C5_empty_target_witness :
    runCreate cfgListOrg "" 1 svcEmptyOrg netOk =
      some (Except.error "no repositories found", [NetEvent.listByOrg 0]) ∧
    submitRepos [NetEvent.listByOrg 0] = [] :=
  claim_C5_empty_target cfgListOrg "" 1 svcEmptyOrg netOk
    [NetEvent.listByOrg 0] (by decide) (by decide) (by decide) (by decide) rfl

/-- Claim C6: on every terminating run, the process exit status (0 from
`runCreate` returning nil, 1 from `os.Exit(1)` on `failed > 0` or from
`log.Fatalf` on a returned error, as encoded in `processExit`) is 0 exactly
when the run completed with zero submission failures; any fatal error and
any positive failure count — regardless of the success count — exits 1. -/
theorem claim_C6_exit_code (cfg : AppConfig) (envToken : String) (fuel : Nat)
    (svc : Nat → Except String (List String × Nat))
    (net : Nat → IssueCall → Except String Unit)
    (r : Except String (Nat × Nat)) (evs : List NetEvent)
    (h : runCreate cfg envToken fuel svc net = some (r, evs)) :
    (processExit r = 0 ↔ ∃ s, r = Except.ok (s, 0)) ∧
    (∀ e, r = Except.error e → processExit r = 1) ∧
    (∀ s f, r = Except.ok (s, f) → 0 < f → processExit r = 1) := by
  refine ⟨?_, ?_, ?_⟩
  · cases r with
    | error e => simp [processExit]
    | ok p =>
      obtain ⟨s, f⟩ := p
      cases f with
      | zero => simp [processExit]
      | succ n => simp [processExit]
  · intro e he
    subst he
    simp [processExit]
  · intro s f hr hf
    subst hr
    simp [processExit, hf]

/-- Witness for C6: a concrete run over two repositories where the second
submission fails completes with counts (1, 1) and a nonzero exit status. -/
theorem claim_C6_exit_code_witness :
    processExit (Except.ok (1, 1)) = 1 ∧
    ¬ processExit (Except.ok (1, 1)) = 0 := by
  have h := claim_C6_exit_code cfgTwoRepos "" 1 svcPages netFailSecond
    (Except.ok (1, 1))
    [NetEvent.createIssue ⟨"acme", "r1", "T", "D", []⟩,
     NetEvent.createIssue ⟨"acme", "r2", "T", "D", []⟩] rfl
  exact ⟨h.2.2 1 1 rfl (by decide), by decide⟩

/-- Claim C7: with an explicit `--repos` string (and the required fields
and a token present, so the batch is reached), the repositories submitted
to are exactly the comma-split of the string with each element trimmed —
`parseList`, definitionally `(splitComma cfg.repos).map trimSpace` — in
order and without de-duplication: the submission trace lists each written
name as often as it is written. -/
theorem claim_C7_explicit_split (cfg : AppConfig) (envToken : String)
    (fuel : Nat) (svc : Nat → Except String (List String × Nat))
    (net : Nat → IssueCall → Except String Unit)
    (h1 : cfg.org ≠ "") (h2 : cfg.title ≠ "") (h3 : cfg.description ≠ "")
    (h4 : resolveToken cfg.token envToken ≠ "") (h5 : cfg.repos ≠ "") :
    ∃ s f evs, runCreate cfg envToken fuel svc net =
        some (Except.ok (s, f), evs) ∧
      submitRepos evs = (splitComma cfg.repos).map trimSpace := by
  have hrun := runCreate_explicit cfg envToken fuel svc net h1 h2 h3 h4 h5
  refine ⟨_, _, _, hrun, ?_⟩
  rw [createIssues_trace]
  simp only [List.nil_append, submitRepos_map_create]
  rfl

/-- Witness for C7: the spec's irregularly spaced list "a, b ,c" leads to
submissions to exactly ["a", "b", "c"]. -/
theorem claim_C7_explicit_split_witness :
    ∃ s f evs, runCreate cfgSpaced "" 1 svcPages netOk =
        some (Except.ok (s, f), evs) ∧
      submitRepos evs = ["a", "b", "c"] := by
  obtain ⟨s, f, evs, hrun, hsub⟩ := claim_C7_explicit_split cfgSpaced "" 1
    svcPages netOk (by decide) (by decide) (by decide) (by decide) (by decide)
  exact ⟨s, f, evs, hrun, hsub.trans (by decide)⟩

/-- Claim C8: submissions happen strictly sequentially in the exact order
of the repository list: the run's submission trace, read in order, is the
list itself — no reordering (and the state-passing formulation is
single-threaded by construction, matching the Go loop). -/
theorem claim_C8_order (net : Nat → IssueCall → Except String Unit)
    (ic : IssueCreator) (repos : List String) :
    submitRepos (CreateIssuesInRepositories net ic repos 0 0 []).2 = repos := by
  rw [createIssues_trace]
  simp [submitRepos_map_create]

/-- Claim C9: every `Issues.Create` call of a run carries the identical
payload: its organization, title, body and label sequence are exactly the
`IssueCreator`'s fields, unmodified, whichever repository the call is for
and whatever the outcomes are. -/
theorem claim_C9_same_payload (net : Nat → IssueCall → Except String Unit)
    (ic : IssueCreator) (repos : List String) (c : IssueCall)
    (h : NetEvent.createIssue c ∈ (CreateIssuesInRepositories net ic repos 0 0 []).2) :
    c.org = ic.org ∧ c.title = ic.title ∧ c.body = ic.desc ∧
      c.labels = ic.labels := by
  rw [createIssues_trace] at h
  simp only [List.nil_append, List.mem_map] at h
  obtain ⟨r, hr, heq⟩ := h
  injection heq with h2
  rw [← h2]
  simp [mkCall]

/-- Witness for C9: in a concrete two-repository run the call for "r1"
carries the creator's org, title, body and labels. -/
theorem claim_C9_same_payload_witness :
    ("acme" : String) = "acme" ∧ ("T" : String) = "T" ∧
      ("D" : String) = "D" ∧ (["lbl"] : List String) = ["lbl"] := by
  have h := claim_C9_same_payload netOk ⟨"tok", "acme", "T", "D", ["lbl"]⟩
    ["r1", "r2"] ⟨"acme", "r1", "T", "D", ["lbl"]⟩ (by decide)
  exact h

/-- Claim C10: a non-empty `--repos` string always resolves to at least one
repository name (`parseList` never returns the empty list), so the
empty-target check never fires for an explicitly supplied list: the run
reaches the batch and attempts one submission per resolved name — for a
value like "," these are empty-string names, not an abort. -/
theorem claim_C10_explicit_never_empty (cfg : AppConfig) (envToken : String)
    (fuel : Nat) (svc : Nat → Except String (List String × Nat))
    (net : Nat → IssueCall → Except String Unit)
    (h1 : cfg.org ≠ "") (h2 : cfg.title ≠ "") (h3 : cfg.description ≠ "")
    (h4 : resolveToken cfg.token envToken ≠ "") (h5 : cfg.repos ≠ "") :
    parseList cfg.repos ≠ [] ∧
    ∃ s f evs, runCreate cfg envToken fuel svc net =
        some (Except.ok (s, f), evs) ∧
      submitRepos evs = parseList cfg.repos ∧
      1 ≤ (submitRepos evs).length := by
  refine ⟨parseList_ne_nil cfg.repos, ?_⟩
  have hrun := runCreate_explicit cfg envToken fuel svc net h1 h2 h3 h4 h5
  refine ⟨_, _, _, hrun, ?_, ?_⟩
  · rw [createIssues_trace]
    simp [submitRepos_map_create]
  · rw [createIssues_trace]
    simp only [List.nil_append, submitRepos_map_create]
    exact Nat.succ_le_of_lt (List.length_pos.mpr (parseList_ne_nil cfg.repos))

/-- Witness for C10: the `--repos` value "," resolves to two empty-string
names and the concrete run attempts a submission for each of them instead
of aborting with the empty-target error. -/
theorem claim_C10_explicit_never_empty_witness :
    parseList "," ≠ [] ∧
    ∃ s f evs, runCreate cfgComma "" 1 svcPages netOk =
        some (Except.ok (s, f), evs) ∧
      submitRepos evs = ["", ""] := by
  obtain ⟨hne, s, f, evs, hrun, hsub, hlen⟩ :=
    claim_C10_explicit_never_empty cfgComma "" 1 svcPages netOk
      (by decide) (by decide) (by decide) (by decide) (by decide)
  exact ⟨by decide, s, f, evs, hrun, hsub.trans (by decide)⟩
